import Mathlib

/-
  Verification of the FERProject interpreter ("cfer", a bytecode VM for the
  Fer language) against its specification.

  The development below is a shallow embedding of the relevant C sources:
  pure C functions become Lean functions, the VM's mutable state becomes
  explicit state records, and pointer arithmetic on the value stack is
  modelled with integer indices into a total function (so that the
  out-of-bounds accesses the C code can perform remain expressible).

  Numbers: the C implementation stores IEEE-754 doubles.  None of the
  properties verified here depends on floating-point specifics, so the
  numeric payload is modelled by the rationals.
-/

/-! ## Value model (value.h)

value.h defines a tagged union over nil, booleans, numbers and heap object
references; object.h's ObjType enumerates the heap object variants.  Object
references are modelled by a type tag plus an identity (the pointer). -/

inductive ObjType where
  | closure
  | native
  | str
  | func
  | upvalue
  | klass
  | inst
  | boundMethod
  | list
  deriving DecidableEq

structure ObjRef where
  otype : ObjType
  oid : Nat
  deriving DecidableEq

inductive Value where
  | nil
  | boolean (b : Bool)
  | num (x : Rat)
  | obj (o : ObjRef)
  deriving DecidableEq

def IS_NIL : Value → Bool
  | Value.nil => true
  | _ => false

def IS_BOOL : Value → Bool
  | Value.boolean _ => true
  | _ => false

def IS_NUMBER : Value → Bool
  | Value.num _ => true
  | _ => false

def IS_OBJ : Value → Bool
  | Value.obj _ => true
  | _ => false

def AS_BOOL : Value → Bool
  | Value.boolean b => b
  | _ => false

def AS_NUMBER : Value → Rat
  | Value.num x => x
  | _ => 0

/-- Modelled from the spec: value.c is absent from src (only value.h is
present), so valuesEqual is modelled from the spec, section 3, "Equality:
nil=nil; booleans structural; numbers by IEEE-754 equality; objects by
identity except interned strings, which compare by identity". -/
def valuesEqual : Value → Value → Bool
  | Value.nil, Value.nil => true
  | Value.boolean a, Value.boolean b => a == b
  | Value.num a, Value.num b => a == b
  | Value.obj a, Value.obj b => a == b
  | _, _ => false

/-! ## Truthiness (vm.c, isFalsey and OP_NOT) -/

/-- isFalsey from vm.c lines 186-188:
return IS_NIL(value) or (IS_BOOL(value) and not AS_BOOL(value)). -/
def isFalsey (value : Value) : Bool :=
  IS_NIL value || (IS_BOOL value && !AS_BOOL value)

/-- The OP_NOT case of run (vm.c lines 359-361):
push(BOOL_VAL(isFalsey(pop()))).  The stack is a list with its top first;
the instruction is modelled on a stack that carries its operand. -/
def opNotStep (x : Value) (rest : List Value) : List Value :=
  Value.boolean (isFalsey x) :: rest

/-! ## Interpreter status (vm.h) -/

inductive InterpretResult where
  | INTERPRET_OK
  | INTERPRET_COMPILE_ERROR
  | INTERPRET_RUNTIME_ERROR
  deriving DecidableEq

/-! ## The run loop state for the arithmetic instructions (vm.c)

The C value stack is a fixed array with a stackTop pointer.  reset and
underflow behaviour matter for claim C1, so the stack memory is modelled
as a total function from integer offsets (relative to the stack base) to
values, together with the stackTop offset.  The C code can read and write
below the base after an underflow; the model expresses those accesses at
negative offsets. -/

structure RunState where
  slots : Int → Value
  stackTop : Int
  frameCount : Nat
  stderrLines : List String

/-- resetStack from vm.c lines 23-27 (the openUpvalues field is modelled
separately for claim C9). -/
def resetStackR (st : RunState) : RunState :=
  { st with stackTop := 0, frameCount := 0 }

/-- runtimeError from vm.c lines 44-64: print the formatted message and a
stack trace to stderr, then resetStack.  Only the leading message line is
recorded here; the per-frame trace lines do not matter for the claims. -/
def runtimeErrorR (msg : String) (st : RunState) : RunState :=
  resetStackR { st with stderrLines := msg :: st.stderrLines }

/-- peek from vm.c lines 105-107. -/
def vmPeekR (st : RunState) (distance : Int) : Value :=
  st.slots (st.stackTop - 1 - distance)

/-- push from vm.c lines 89-92. -/
def vmPushR (st : RunState) (v : Value) : RunState :=
  { st with
    slots := fun i => if i = st.stackTop then v else st.slots i,
    stackTop := st.stackTop + 1 }

/-- pop from vm.c lines 94-97. -/
def vmPopR (st : RunState) : Value × RunState :=
  (st.slots (st.stackTop - 1), { st with stackTop := st.stackTop - 1 })

inductive BinOp where
  | sub
  | mul
  | div
  | greater
  | less
  deriving DecidableEq

/-- The result value pushed by BINARY_OP: valueType(a op b), where
OP_SUBTRACT, OP_MULTIPLY and OP_DIVIDE use NUMBER_VAL and OP_GREATER and
OP_LESS use BOOL_VAL. -/
def binOpVal : BinOp → Rat → Rat → Value
  | BinOp.sub, a, b => Value.num (a - b)
  | BinOp.mul, a, b => Value.num (a * b)
  | BinOp.div, a, b => Value.num (a / b)
  | BinOp.greater, a, b => Value.boolean (decide (b < a))
  | BinOp.less, a, b => Value.boolean (decide (a < b))

/-- The BINARY_OP macro from vm.c lines 260-268, exactly as written: when a
peeked operand is not a number it calls runtimeError, but it contains no
return statement, so it falls through to the two pops and the push and the
dispatch loop keeps running.  The second component is the value the
enclosing run() would return out of this instruction: the macro never
returns one. -/
def binaryOpStep (op : BinOp) (st : RunState) : RunState × Option InterpretResult :=
  let st1 :=
    if !IS_NUMBER (vmPeekR st 0) || !IS_NUMBER (vmPeekR st 1) then
      runtimeErrorR "Operands must be numbers." st
    else st
  let p1 := vmPopR st1
  let p2 := vmPopR p1.2
  (vmPushR p2.2 (binOpVal op (AS_NUMBER p2.1) (AS_NUMBER p1.1)), none)

/-- The OP_NEGATE case of run (vm.c lines 362-369), which by contrast does
return INTERPRET_RUNTIME_ERROR on a non-number operand. -/
def opNegateStep (st : RunState) : RunState × Option InterpretResult :=
  if !IS_NUMBER (vmPeekR st 0) then
    (runtimeErrorR "Operand must be a number." st, some InterpretResult.INTERPRET_RUNTIME_ERROR)
  else
    let p := vmPopR st
    (vmPushR p.2 (Value.num (-(AS_NUMBER p.1))), none)

/-- A run state whose stack holds the number 1 below and nil on top, about
to execute one of the BINARY_OP instructions. -/
def c1State : RunState :=
  { slots := fun i => if i = 0 then Value.num 1 else Value.nil,
    stackTop := 2,
    frameCount := 1,
    stderrLines := [] }

/-! ## Garbage collector (memory.c)

The allocation list vm.objects is modelled as a list of objects carrying
their identity and mark bit; the root set enumerated by markRoots (value
stack, frame closures, open upvalues, globals table, compiler chain) is
abstracted to the list of object identities it reaches. -/

structure GCObj where
  gid : Nat
  isMarked : Bool
  deriving DecidableEq

structure GCHeap where
  objects : List GCObj
  bytesAllocated : Nat
  nextGC : Nat
  rootIds : List Nat
  deriving DecidableEq

/-- markObject from memory.c lines 63-72: it only sets the mark bit (there
is no gray worklist in the code). -/
def markObject (heap : GCHeap) (oid : Nat) : GCHeap :=
  { heap with
    objects := heap.objects.map fun o =>
      if o.gid = oid then { o with isMarked := true } else o }

/-- markRoots from memory.c lines 110-125: mark every root object. -/
def markRoots (heap : GCHeap) : GCHeap :=
  heap.rootIds.foldl markObject heap

/-- collectGarbage from memory.c lines 127-137: it calls markRoots and
nothing else.  There is no trace phase, no sweep, no mark-bit clearing and
no nextGC update in the code. -/
def collectGarbage (heap : GCHeap) : GCHeap :=
  markRoots heap

/-- DEBUG_STRESS_GC is commented out in common.h line 16. -/
def DEBUG_STRESS_GC : Bool := false

/-- reallocate from memory.c lines 46-61: the only garbage-collection
trigger is the DEBUG_STRESS_GC block on a growing allocation.  The function
never updates bytesAllocated or nextGC and never compares them. -/
def reallocate (heap : GCHeap) (oldSize newSize : Nat) : GCHeap :=
  if newSize > oldSize && DEBUG_STRESS_GC then collectGarbage heap else heap

/-- A heap with a single unreachable, unmarked object and an allocation
volume already past the collection threshold. -/
def c2Heap : GCHeap :=
  { objects := [{ gid := 7, isMarked := false }],
    bytesAllocated := 100,
    nextGC := 8,
    rootIds := [] }

/-- A heap whose only object is marked and unreachable. -/
def c2HeapMarked : GCHeap :=
  { objects := [{ gid := 7, isMarked := true }],
    bytesAllocated := 100,
    nextGC := 8,
    rootIds := [] }

/-! ## Chunk (chunk.c / chunk.h)

chunk.h declares the Chunk as parallel arrays code and lines plus a
constant pool.  The arrays are modelled as lists (count is the code list
length).  chunk.c's initChunk sets count, capacity and code but leaves the
lines and constants members untouched, and chunk.c's writeChunk is defined
without any line parameter and writes only the code array; both are
embedded exactly as written. -/

structure Chunk where
  code : List Nat
  lines : List Int
  constants : List Value
  deriving DecidableEq

/-- initChunk from chunk.c lines 5-9: count := 0, capacity := 0,
code := NULL; the lines and constants members are not initialized. -/
def initChunk (c : Chunk) : Chunk :=
  { c with code := [] }

/-- writeChunk from chunk.c lines 20-29: it takes only the chunk and the
byte (no source line), grows the code array if needed and appends the byte.
The lines array is never written. -/
def writeChunk (c : Chunk) (byte : Nat) : Chunk :=
  { c with code := c.code ++ [byte] }

/-- OP_RETURN has value 24 in chunk.h's OpCode enumeration. -/
def OP_RETURN_BYTE : Nat := 24

/-! ## Claims C1, C2, C3, C7 -/

/-- Claim C1: the claim states that OP_SUBTRACT, OP_MULTIPLY, OP_DIVIDE,
OP_GREATER and OP_LESS on a non-number operand report a runtime error and
halt the current interpret call with a runtime-error status.  The embedded
BINARY_OP macro shows otherwise: on the stack [1, nil] each of the five
instructions reports the error (and resets the stacks), but returns no
interpret status, so the dispatch loop keeps executing instructions on the
corrupted state (the stack top even ends up below the stack base at -1,
because the two pops run on the freshly reset stack).  The claim is right
about the intent (every other runtime-error site in run() does return
INTERPRET_RUNTIME_ERROR, as opNegateStep shows), so this is a code bug:
BINARY_OP is missing the return. -/
theorem c1_binary_op_error_does_not_halt :
    ((binaryOpStep BinOp.sub c1State).2 = none
      ∧ (binaryOpStep BinOp.mul c1State).2 = none
      ∧ (binaryOpStep BinOp.div c1State).2 = none
      ∧ (binaryOpStep BinOp.greater c1State).2 = none
      ∧ (binaryOpStep BinOp.less c1State).2 = none)
    ∧ (binaryOpStep BinOp.sub c1State).1.stderrLines = ["Operands must be numbers."]
    ∧ (binaryOpStep BinOp.sub c1State).1.frameCount = 0
    ∧ (binaryOpStep BinOp.sub c1State).1.stackTop = -1
    ∧ (opNegateStep c1State).2 = some InterpretResult.INTERPRET_RUNTIME_ERROR := by
  refine ⟨⟨rfl, rfl, rfl, rfl, rfl⟩, rfl, rfl, by decide, rfl⟩

/-- Claim C2: the claim describes a mark-and-sweep collection (sweep frees
unmarked objects and clears surviving mark bits) triggered when
bytesAllocated exceeds nextGC, with nextGC doubled afterwards.  The
embedded memory.c shows none of this exists: collectGarbage only marks
roots, so an unreachable unmarked object survives on the allocation list,
a marked object never has its bit cleared, nextGC is never updated, and
reallocate neither tracks bytesAllocated nor triggers a collection (the
stress-GC block is compiled out).  Code bug: vm.h declares bytesAllocated,
nextGC and the gray stack for exactly this purpose and memory.c never uses
them. -/
theorem c2_gc_never_sweeps :
    collectGarbage c2Heap = c2Heap
    ∧ { gid := 7, isMarked := false } ∈ (collectGarbage c2Heap).objects
    ∧ (collectGarbage c2Heap).nextGC ≠ (collectGarbage c2Heap).bytesAllocated * 2
    ∧ collectGarbage c2HeapMarked = c2HeapMarked
    ∧ reallocate c2Heap 0 64 = c2Heap
    ∧ (reallocate c2Heap 0 64).bytesAllocated = c2Heap.bytesAllocated := by
  refine ⟨rfl, by decide, by decide, rfl, rfl, rfl⟩

/-- Claim C3: the claim states that writing a byte records the byte's
source line in the parallel lines array, so lines[i] is defined for every
offset below count.  The embedded chunk.c refutes this: writeChunk takes no
line argument at all and never touches lines, so after writing one byte to
a fresh chunk the count is 1 while the lines array is still empty — offset
0 has no defined line.  Code bug: chunk.h itself declares
writeChunk(Chunk, uint8_t, int line), compiler.c calls it with a line
argument, and vm.c reads chunk.lines for error reporting. -/
theorem c3_write_chunk_records_no_line :
    (writeChunk (initChunk { code := [], lines := [], constants := [] }) OP_RETURN_BYTE).code.length = 1
    ∧ (writeChunk (initChunk { code := [], lines := [], constants := [] }) OP_RETURN_BYTE).lines = []
    ∧ ¬(0 < (writeChunk (initChunk { code := [], lines := [], constants := [] }) OP_RETURN_BYTE).lines.length) := by
  refine ⟨rfl, rfl, by decide⟩

/-- Claim C7: OP_NOT pushes true exactly when the operand is nil or the
boolean false, and false for every other value (numbers including 0, and
every heap object, hence lists and dictionaries, are truthy); equivalently
the pushed boolean is (x == nil or x == false) under the language's value
equality. -/
theorem c7_not_is_falsiness (x : Value) (s : List Value) :
    opNotStep x s
      = Value.boolean (valuesEqual x Value.nil || valuesEqual x (Value.boolean false)) :: s
    ∧ (isFalsey x = true ↔ x = Value.nil ∨ x = Value.boolean false) := by
  constructor
  · cases x with
    | nil => rfl
    | boolean b => cases b <;> rfl
    | num q =>
      simp [opNotStep, isFalsey, IS_NIL, IS_BOOL, AS_BOOL, valuesEqual]
    | obj o =>
      simp [opNotStep, isFalsey, IS_NIL, IS_BOOL, AS_BOOL, valuesEqual]
  · cases x with
    | nil => simp [isFalsey, IS_NIL, IS_BOOL, AS_BOOL]
    | boolean b => cases b <;> simp [isFalsey, IS_NIL, IS_BOOL, AS_BOOL]
    | num q => simp [isFalsey, IS_NIL, IS_BOOL, AS_BOOL]
    | obj o => simp [isFalsey, IS_NIL, IS_BOOL, AS_BOOL]

/-! ## Calling values (vm.c, call and callValue)

The parts of the VM state that the call protocol touches are the number of
values on the stack, the frame count and the error output.  The arity of
each closure's function is supplied as a map from object identity. -/

def FRAMES_MAX : Nat := 64

structure CallVM where
  stackLen : Nat
  frameCount : Nat
  stderrLines : List String
  deriving DecidableEq

/-- runtimeError as seen from the call protocol: print the message, reset
the stacks. -/
def runtimeErrorC (msg : String) (st : CallVM) : CallVM :=
  { stackLen := 0, frameCount := 0, stderrLines := msg :: st.stderrLines }

/-- call from vm.c lines 109-125: check the arity, check for frame-stack
overflow, then push a frame whose slots start at the callee. -/
def vmCall (arity : Nat → Nat) (oid argCount : Nat) (st : CallVM) : Bool × CallVM :=
  if argCount ≠ arity oid then
    (false,
      runtimeErrorC
        ("Expected " ++ toString (arity oid) ++ " arguments but got " ++ toString argCount ++ ".")
        st)
  else if st.frameCount = FRAMES_MAX then
    (false, runtimeErrorC "Stack overflow." st)
  else
    (true, { st with frameCount := st.frameCount + 1 })

/-- callValue from vm.c lines 127-145, exactly as written: the switch over
OBJ_TYPE(callee) handles only OBJ_CLOSURE and OBJ_NATIVE; every other
object type falls to the default break, and every callee reaching the end
of the function gets the runtime error "Can only call functions and
classes." and a false return.  The native case replaces the callee and its
arguments with the (single) result. -/
def callValue (arity : Nat → Nat) (callee : Value) (argCount : Nat) (st : CallVM) :
    Bool × CallVM :=
  match callee with
  | Value.obj o =>
    match o.otype with
    | ObjType.closure => vmCall arity o.oid argCount st
    | ObjType.native => (true, { st with stackLen := st.stackLen - (argCount + 1) + 1 })
    | _ => (false, runtimeErrorC "Can only call functions and classes." st)
  | _ => (false, runtimeErrorC "Can only call functions and classes." st)

/-- An arity map assigning every closure arity zero. -/
def c4Arity : Nat → Nat := fun _ => 0

/-- A VM about to perform a call: one value (the callee) on the stack, one
active frame. -/
def c4State : CallVM :=
  { stackLen := 1, frameCount := 1, stderrLines := [] }

/-- Claim C4: the claim states that calling a class allocates an instance
(then runs init or requires zero arguments) and that calling a bound
method calls its closure on the bound receiver, so that closures, natives,
classes and bound methods are all callable.  The embedded callValue
refutes this: a class callee and a bound-method callee both fall to the
default branch and produce the runtime error "Can only call functions and
classes.", while a closure callee of matching arity succeeds.  Code bug:
compiler.c compiles class declarations (emitting OP_CLASS, OP_METHOD,
OP_INHERIT) and object.h declares newInstance and newBoundMethod, but
vm.c's callValue has no OBJ_CLASS or OBJ_BOUND_METHOD case. -/
theorem c4_calling_a_class_is_a_runtime_error :
    callValue c4Arity (Value.obj { otype := ObjType.klass, oid := 3 }) 0 c4State
      = (false, { stackLen := 0, frameCount := 0,
                  stderrLines := ["Can only call functions and classes."] })
    ∧ callValue c4Arity (Value.obj { otype := ObjType.boundMethod, oid := 4 }) 0 c4State
      = (false, { stackLen := 0, frameCount := 0,
                  stderrLines := ["Can only call functions and classes."] })
    ∧ callValue c4Arity (Value.obj { otype := ObjType.closure, oid := 1 }) 0 c4State
      = (true, { stackLen := 1, frameCount := 2, stderrLines := [] })
    ∧ callValue c4Arity (Value.obj { otype := ObjType.native, oid := 2 }) 0 c4State
      = (true, { stackLen := 1, frameCount := 1, stderrLines := [] }) := by
  refine ⟨by decide, by decide, by decide, by decide⟩

/-! ## The globals table (table.h; table.c is absent from src)

table.c is not part of src (only table.h declares the interface), so the
hash table is modelled from the spec, section 3: a table maps string keys
to values; tombstone and probing mechanics are internal and do not affect
the key-value mapping.  tableSet binds the key and reports whether the key
was new; tableGet looks the key up; tableDelete removes the binding. -/

/-- Modelled from the spec: tableSet from the absent table.c.  Binds key to
value, returning true exactly when the key was not present before. -/
def tableSet : List (String × Value) → String → Value → Bool × List (String × Value)
  | [], k, v => (true, [(k, v)])
  | e :: rest, k, v =>
    if e.1 = k then (false, (k, v) :: rest)
    else
      let r := tableSet rest k v
      (r.1, e :: r.2)

/-- Modelled from the spec: tableGet from the absent table.c. -/
def tableGet : List (String × Value) → String → Option Value
  | [], _ => none
  | e :: rest, k => if e.1 = k then some e.2 else tableGet rest k

/-- Modelled from the spec: tableDelete from the absent table.c.  Removes
the binding for the key (the tombstone left in the physical table does not
change the mapping). -/
def tableDelete : List (String × Value) → String → List (String × Value)
  | [], _ => []
  | e :: rest, k => if e.1 = k then rest else e :: tableDelete rest k

/-! ## OP_SET_GLOBAL and the globals discipline (vm.c lines 316-324) -/

structure GlobalsVM where
  globals : List (String × Value)
  stack : List Value
  frameCount : Nat
  stderrLines : List String
  deriving DecidableEq

/-- runtimeError as seen from the globals instructions. -/
def runtimeErrorG (msg : String) (st : GlobalsVM) : GlobalsVM :=
  { st with stack := [], frameCount := 0, stderrLines := msg :: st.stderrLines }

/-- peek(0) for the globals instructions: the value on top of the stack. -/
def peekTop (st : GlobalsVM) : Value :=
  st.stack.headD Value.nil

/-- The OP_SET_GLOBAL case of run (vm.c lines 316-324): tableSet the name
to the top of the stack; if the key was new the variable was undefined, so
the tentatively created entry is deleted again, the runtime error is
reported (the C message is "Undefined variable 'name'.") and the
instruction returns INTERPRET_RUNTIME_ERROR; otherwise the assignment
stands, nothing is popped, and execution continues.  There is no
permanence check of any kind. -/
def stepSetGlobal (name : String) (st : GlobalsVM) : GlobalsVM × Option InterpretResult :=
  let r := tableSet st.globals name (peekTop st)
  if r.1 then
    let g3 := tableDelete r.2 name
    (runtimeErrorG ("Undefined variable " ++ name ++ ".") { st with globals := g3 },
      some InterpretResult.INTERPRET_RUNTIME_ERROR)
  else
    ({ st with globals := r.2 }, none)

/-! ## The compiler side of perm (compiler.c) -/

/-- The opcodes compiler.c emits for variable definition and assignment.
OP_DEFINE_GLOBAL_PERM is referenced by compiler.c line 477 and debug.c, but
chunk.h's OpCode enumeration does not declare it (nor do the VM's run cases
include it). -/
inductive COp where
  | OP_DEFINE_GLOBAL
  | OP_DEFINE_GLOBAL_PERM
  | OP_SET_LOCAL
  | OP_SET_UPVALUE
  | OP_SET_GLOBAL
  deriving DecidableEq

/-- defineVariable from compiler.c lines 470-481: inside a scope it only
marks the local initialized and emits nothing; at global scope it emits
OP_DEFINE_GLOBAL_PERM for a perm declaration and OP_DEFINE_GLOBAL
otherwise, each with the name-constant operand. -/
def defineVariable (scopeDepth : Nat) (global : Nat) (isPerm : Bool) : Option (COp × Nat) :=
  if scopeDepth > 0 then none
  else if isPerm then some (COp.OP_DEFINE_GLOBAL_PERM, global)
  else some (COp.OP_DEFINE_GLOBAL, global)

/-- A compiler Local (compiler.c lines 70-75). -/
structure CLocal where
  lname : String
  depth : Int
  isCaptured : Bool
  isPerm : Bool

/-- A compiler frame: the fixed locals array is modelled as a total
function (reads beyond localCount reach uninitialized memory, which the C
code can in fact perform in namedVariable). -/
structure CompilerFrame where
  locals : Nat → CLocal
  localCount : Nat

/-- resolveLocal from compiler.c lines 361-373: search the locals from the
innermost (localCount - 1) downwards for the name; return the slot index,
or -1 when the name is not a local. -/
def resolveLocal (c : CompilerFrame) (name : String) : Int :=
  match (List.range c.localCount).reverse.find? (fun i => (c.locals i).lname = name) with
  | some i => (i : Int)
  | none => -1

/-- The outcome of namedVariable's assignment path: a possibly reported
compile error, plus the emitted set opcode and operand (the compiler keeps
emitting even after reporting an error; errors only set flags). -/
structure NamedVarOutcome where
  err : Option String
  emitOp : COp
  emitArg : Nat
  deriving DecidableEq

/-- The assignment path of namedVariable from compiler.c lines 686-711
(canAssign true and an equals token consumed): resolve the name as a local,
else as an upvalue (the enclosing-frame search is supplied as its result),
else as a global name constant; then, before emitting the set instruction,
report "Can't reassign to permanent variable" when arg is not -1 and
current.locals[arg].isPerm — note the code performs this locals read even
when arg is an upvalue or global-constant index.  The message is recorded
without the apostrophe. -/
def namedVariableAssign (c : CompilerFrame) (resolveUpvalueResult : Int) (constIdx : Nat)
    (name : String) : NamedVarOutcome :=
  let a := resolveLocal c name
  let pair : COp × Int :=
    if a ≠ -1 then (COp.OP_SET_LOCAL, a)
    else if resolveUpvalueResult ≠ -1 then (COp.OP_SET_UPVALUE, resolveUpvalueResult)
    else (COp.OP_SET_GLOBAL, (constIdx : Int))
  let arg := pair.2
  { err :=
      if arg ≠ -1 ∧ (c.locals arg.toNat).isPerm = true then
        some "Cannot reassign to permanent variable"
      else none,
    emitOp := pair.1,
    emitArg := arg.toNat }

/-- A compiler frame holding a perm local named x in slot 1 (slot 0 is the
function's reserved slot). -/
def c5Frame : CompilerFrame :=
  { locals := fun i =>
      if i = 1 then { lname := "x", depth := 1, isCaptured := false, isPerm := true }
      else { lname := "", depth := 0, isCaptured := false, isPerm := false },
    localCount := 2 }

/-- The VM state after perm a = 1 would have bound a, about to execute the
assignment a = 2 (the value 2 is on top of the stack). -/
def c5State : GlobalsVM :=
  { globals := [("a", Value.num 1)],
    stack := [Value.num 2],
    frameCount := 1,
    stderrLines := [] }

/-- Claim C5: the compile-time half of the claim holds — a perm declaration
at global scope emits OP_DEFINE_GLOBAL_PERM (first conjunct) and assigning
to a perm local is a compile error (second conjunct) — but the runtime half
fails: the VM applies no permanence discipline whatsoever, so once a is
bound in the globals table, OP_SET_GLOBAL a overwrites it with no error
(third conjunct).  Code bug: chunk.h does not even declare
OP_DEFINE_GLOBAL_PERM (compiler.c references an undeclared enumerator),
vm.c's run has no case for it, OP_SET_GLOBAL checks nothing about
permanence, and vm.h's globalPerms table is never used. -/
theorem c5_perm_global_not_enforced_at_runtime :
    defineVariable 0 5 true = some (COp.OP_DEFINE_GLOBAL_PERM, 5)
    ∧ (namedVariableAssign c5Frame (-1) 9 "x").err
        = some "Cannot reassign to permanent variable"
    ∧ (namedVariableAssign c5Frame (-1) 9 "x").emitOp = COp.OP_SET_LOCAL
    ∧ stepSetGlobal "a" c5State
        = ({ c5State with globals := [("a", Value.num 2)] }, none) := by
  refine ⟨by decide, by decide, by decide, by decide⟩

/-! ## Claim C10: failed global assignment leaves no binding -/

theorem tableSet_of_get_none (t : List (String × Value)) (k : String) (v : Value)
    (h : tableGet t k = none) : tableSet t k v = (true, t ++ [(k, v)]) := by
  induction t with
  | nil => rfl
  | cons e rest ih =>
    simp only [tableGet] at h
    by_cases hk : e.1 = k
    · simp [hk] at h
    · simp only [tableSet, if_neg hk]
      rw [ih (by simpa [hk] using h)]
      simp

theorem tableDelete_append_of_get_none (t : List (String × Value)) (k : String) (v : Value)
    (h : tableGet t k = none) : tableDelete (t ++ [(k, v)]) k = t := by
  induction t with
  | nil => simp [tableDelete]
  | cons e rest ih =>
    simp only [tableGet] at h
    by_cases hk : e.1 = k
    · simp [hk] at h
    · simp only [List.cons_append, tableDelete, if_neg hk]
      simp [ih (by simpa [hk] using h)]

/-- Claim C10: when OP_SET_GLOBAL names a variable with no binding in the
globals table, the instruction reports the undefined-variable runtime
error, returns the runtime-error status, and the globals table is exactly
what it was before the instruction: the tentatively inserted entry is
deleted again before the error is reported, so a failed global assignment
never creates a binding. -/
theorem c10_set_global_undefined_restores_table (st : GlobalsVM) (name : String)
    (h : tableGet st.globals name = none) :
    (stepSetGlobal name st).2 = some InterpretResult.INTERPRET_RUNTIME_ERROR
    ∧ (stepSetGlobal name st).1.globals = st.globals
    ∧ (stepSetGlobal name st).1.stderrLines
        = ("Undefined variable " ++ name ++ ".") :: st.stderrLines := by
  have hset := tableSet_of_get_none st.globals name (peekTop st) h
  have hdel := tableDelete_append_of_get_none st.globals name (peekTop st) h
  refine ⟨?_, ?_, ?_⟩ <;>
    simp [stepSetGlobal, hset, hdel, runtimeErrorG]

/-- Witness for C10 at a concrete state: the table binds only b, and the
assignment targets the unbound name a. -/
theorem c10_set_global_undefined_restores_table_witness :
    tableGet ([("b", Value.num 1)] : List (String × Value)) "a" = none
    ∧ ((stepSetGlobal "a"
          { globals := [("b", Value.num 1)], stack := [Value.num 2],
            frameCount := 1, stderrLines := [] }).2
          = some InterpretResult.INTERPRET_RUNTIME_ERROR
        ∧ (stepSetGlobal "a"
            { globals := [("b", Value.num 1)], stack := [Value.num 2],
              frameCount := 1, stderrLines := [] }).1.globals = [("b", Value.num 1)]
        ∧ (stepSetGlobal "a"
            { globals := [("b", Value.num 1)], stack := [Value.num 2],
              frameCount := 1, stderrLines := [] }).1.stderrLines
            = ("Undefined variable " ++ "a" ++ ".") :: []) :=
  ⟨by decide,
    c10_set_global_undefined_restores_table
      { globals := [("b", Value.num 1)], stack := [Value.num 2],
        frameCount := 1, stderrLines := [] } "a" (by decide)⟩

/-! ## Scanner (scanner.c / scanner.h)

The scanner state keeps the source characters and the start and current
offsets (pointers into the source in C) and the line counter.  The C source
buffer is NUL-terminated; reads past the end yield the NUL character.  The
token kinds are those of scanner.h's TokenType enumeration, extended by
TOKEN_BREAK, TOKEN_CONTINUE and TOKEN_PERM, which scanner.c's keyword trie
references although scanner.h does not declare them. -/

inductive TokenType where
  | TOKEN_LEFT_PAREN
  | TOKEN_RIGHT_PAREN
  | TOKEN_LEFT_BRACE
  | TOKEN_RIGHT_BRACE
  | TOKEN_COMMA
  | TOKEN_DOT
  | TOKEN_MINUS
  | TOKEN_PLUS
  | TOKEN_SEMICOLON
  | TOKEN_SLASH
  | TOKEN_STAR
  | TOKEN_BANG
  | TOKEN_BANG_EQUAL
  | TOKEN_EQUAL
  | TOKEN_EQUAL_EQUAL
  | TOKEN_GREATER
  | TOKEN_GREATER_EQUAL
  | TOKEN_LESS
  | TOKEN_LESS_EQUAL
  | TOKEN_IDENTIFIER
  | TOKEN_STRING
  | TOKEN_NUMBER
  | TOKEN_AND
  | TOKEN_BREAK
  | TOKEN_CLASS
  | TOKEN_CONTINUE
  | TOKEN_ELSE
  | TOKEN_FALSE
  | TOKEN_FOR
  | TOKEN_FUN
  | TOKEN_IF
  | TOKEN_NIL
  | TOKEN_OR
  | TOKEN_PERM
  | TOKEN_PRINT
  | TOKEN_RETURN
  | TOKEN_SUPER
  | TOKEN_THIS
  | TOKEN_TRUE
  | TOKEN_VAR
  | TOKEN_WHILE
  | TOKEN_ERROR
  | TOKEN_EOF
  deriving DecidableEq

structure ScanState where
  src : List Char
  startPos : Nat
  current : Nat
  line : Nat
  deriving DecidableEq

structure Token where
  ttype : TokenType
  lexeme : List Char
  line : Nat
  deriving DecidableEq

/-- initScanner from scanner.c lines 16-20. -/
def initScanner (source : String) : ScanState :=
  { src := source.toList, startPos := 0, current := 0, line := 1 }

/-- Reading the source buffer at an offset; beyond the end the C buffer
holds the NUL terminator. -/
def charAt (s : List Char) (i : Nat) : Char :=
  s.getD i (Char.ofNat 0)

/-- isAtEnd from scanner.c lines 32-34 (the current character is the NUL
terminator exactly when the offset has reached the length, for NUL-free
sources). -/
def isAtEnd (s : ScanState) : Bool :=
  decide (s.src.length ≤ s.current)

/-- advance from scanner.c lines 36-39. -/
def advanceSc (s : ScanState) : Char × ScanState :=
  (charAt s.src s.current, { s with current := s.current + 1 })

/-- peek from scanner.c lines 41-43. -/
def peekSc (s : ScanState) : Char :=
  charAt s.src s.current

/-- peekNext from scanner.c lines 45-48. -/
def peekNextSc (s : ScanState) : Char :=
  if isAtEnd s then Char.ofNat 0 else charAt s.src (s.current + 1)

/-- match from scanner.c lines 50-55. -/
def matchSc (expected : Char) (s : ScanState) : Bool × ScanState :=
  if isAtEnd s then (false, s)
  else if charAt s.src s.current != expected then (false, s)
  else (true, { s with current := s.current + 1 })

/-- isAlpha from scanner.c lines 22-26. -/
def isAlphaC (c : Char) : Bool :=
  (decide (97 ≤ c.toNat) && decide (c.toNat ≤ 122))
    || (decide (65 ≤ c.toNat) && decide (c.toNat ≤ 90))
    || c == '_'

/-- isDigit from scanner.c lines 28-30. -/
def isDigitC (c : Char) : Bool :=
  decide (48 ≤ c.toNat) && decide (c.toNat ≤ 57)

/-- makeToken from scanner.c lines 62-69: the lexeme is the slice of the
source from start to current. -/
def makeToken (t : TokenType) (s : ScanState) : Token :=
  { ttype := t,
    lexeme := (s.src.drop s.startPos).take (s.current - s.startPos),
    line := s.line }

/-- errorToken from scanner.c lines 75-82: the lexeme is the diagnostic
message itself. -/
def errorToken (msg : String) (s : ScanState) : Token :=
  { ttype := TokenType.TOKEN_ERROR, lexeme := msg.toList, line := s.line }

/-- The line-comment loop inside skipWhitespace:
while (peek() != newline and not isAtEnd()) advance().  The fuel bounds the
iteration count; source length plus one suffices. -/
def skipComment : Nat → ScanState → ScanState
  | 0, s => s
  | fuel + 1, s =>
    if peekSc s != '\n' && !isAtEnd s then skipComment fuel (advanceSc s).2 else s

/-- skipWhitespace from scanner.c lines 94-118: spaces, carriage returns
and tabs are consumed; a newline bumps the line counter; a double slash
consumes a line comment (leaving the newline for the next round); anything
else returns. -/
def skipWhitespaceF : Nat → ScanState → ScanState
  | 0, s => s
  | fuel + 1, s =>
    let c := peekSc s
    if c == ' ' || c == '\r' || c == '\t' then
      skipWhitespaceF fuel (advanceSc s).2
    else if c == '\n' then
      skipWhitespaceF fuel (advanceSc { s with line := s.line + 1 }).2
    else if c == '/' then
      if peekNextSc s == '/' then
        skipWhitespaceF fuel (skipComment (s.src.length + 1) s)
      else s
    else s

/-- checkKeyword from scanner.c lines 130-135: the lexeme must be exactly
start + length long and its tail from start must equal rest. -/
def checkKeyword (s : ScanState) (start len : Nat) (rest : List Char) (t : TokenType) :
    TokenType :=
  if s.current - s.startPos == start + len
      && ((s.src.drop (s.startPos + start)).take len == rest) then t
  else TokenType.TOKEN_IDENTIFIER

/-- scanner.start[i] while scanning an identifier. -/
def lexChar (s : ScanState) (i : Nat) : Char :=
  charAt s.src (s.startPos + i)

/-- identifierType from scanner.c lines 179-224, ported switch case by
switch case.  The C cases for the first letters c and p have no break after
their inner switch, so when the inner switch does not return they fall
through into the cases for e and r respectively; those fall-throughs are
reproduced here.  The inner-switch misses for f and t break out and yield
an identifier. -/
def identifierType (s : ScanState) : TokenType :=
  let c0 := lexChar s 0
  let long := decide (1 < s.current - s.startPos)
  if c0 == 'a' then checkKeyword s 1 2 "nd".toList TokenType.TOKEN_AND
  else if c0 == 'b' then checkKeyword s 1 4 "reak".toList TokenType.TOKEN_BREAK
  else if c0 == 'c' then
    if long && lexChar s 1 == 'l' then checkKeyword s 2 3 "ass".toList TokenType.TOKEN_CLASS
    else if long && lexChar s 1 == 'o' then
      checkKeyword s 2 6 "ntinue".toList TokenType.TOKEN_CONTINUE
    else checkKeyword s 1 3 "lse".toList TokenType.TOKEN_ELSE
  else if c0 == 'e' then checkKeyword s 1 3 "lse".toList TokenType.TOKEN_ELSE
  else if c0 == 'f' then
    if long && lexChar s 1 == 'a' then checkKeyword s 2 3 "lse".toList TokenType.TOKEN_FALSE
    else if long && lexChar s 1 == 'o' then checkKeyword s 2 1 "r".toList TokenType.TOKEN_FOR
    else if long && lexChar s 1 == 'u' then checkKeyword s 2 1 "n".toList TokenType.TOKEN_FUN
    else TokenType.TOKEN_IDENTIFIER
  else if c0 == 'i' then checkKeyword s 1 1 "f".toList TokenType.TOKEN_IF
  else if c0 == 'n' then checkKeyword s 1 2 "il".toList TokenType.TOKEN_NIL
  else if c0 == 'o' then checkKeyword s 1 1 "r".toList TokenType.TOKEN_OR
  else if c0 == 'p' then
    if long && lexChar s 1 == 'e' then checkKeyword s 2 2 "rm".toList TokenType.TOKEN_PERM
    else if long && lexChar s 1 == 'r' then
      checkKeyword s 2 3 "int".toList TokenType.TOKEN_PRINT
    else checkKeyword s 1 5 "eturn".toList TokenType.TOKEN_RETURN
  else if c0 == 'r' then checkKeyword s 1 5 "eturn".toList TokenType.TOKEN_RETURN
  else if c0 == 's' then checkKeyword s 1 4 "uper".toList TokenType.TOKEN_SUPER
  else if c0 == 't' then
    if long && lexChar s 1 == 'h' then checkKeyword s 2 2 "is".toList TokenType.TOKEN_THIS
    else if long && lexChar s 1 == 'r' then checkKeyword s 2 2 "ue".toList TokenType.TOKEN_TRUE
    else TokenType.TOKEN_IDENTIFIER
  else if c0 == 'v' then checkKeyword s 1 2 "ar".toList TokenType.TOKEN_VAR
  else if c0 == 'w' then checkKeyword s 1 4 "hile".toList TokenType.TOKEN_WHILE
  else TokenType.TOKEN_IDENTIFIER

/-- The identifier loop from scanner.c lines 226-229:
while (isAlpha(peek()) or isDigit(peek())) advance(). -/
def identLoop : Nat → ScanState → ScanState
  | 0, s => s
  | fuel + 1, s =>
    if isAlphaC (peekSc s) || isDigitC (peekSc s) then identLoop fuel (advanceSc s).2 else s

/-- The digit loop inside number (scanner.c lines 231-242). -/
def digitLoop : Nat → ScanState → ScanState
  | 0, s => s
  | fuel + 1, s =>
    if isDigitC (peekSc s) then digitLoop fuel (advanceSc s).2 else s

/-- number from scanner.c lines 231-242. -/
def numberTok (s : ScanState) : Token × ScanState :=
  let s := digitLoop (s.src.length + 1) s
  let s :=
    if peekSc s == '.' && isDigitC (peekNextSc s) then
      digitLoop (s.src.length + 1) (advanceSc s).2
    else s
  (makeToken TokenType.TOKEN_NUMBER s, s)

/-- The string-body loop from scanner.c lines 244-249: until the closing
quote or the end, bump the line on a newline, skip the character after a
backslash, and advance. -/
def stringLoop : Nat → ScanState → ScanState
  | 0, s => s
  | fuel + 1, s =>
    if peekSc s != '"' && !isAtEnd s then
      let s := if peekSc s == '\n' then { s with line := s.line + 1 } else s
      let s := if peekSc s == '\\' then (advanceSc s).2 else s
      stringLoop fuel (advanceSc s).2
    else s

/-- string from scanner.c lines 244-256. -/
def stringTok (s : ScanState) : Token × ScanState :=
  let s := stringLoop (s.src.length + 1) s
  if isAtEnd s then (errorToken "Unterminated string." s, s)
  else
    let s := (advanceSc s).2
    (makeToken TokenType.TOKEN_STRING s, s)

/-- scanToken from scanner.c lines 269-303, ported switch case by switch
case.  Note the punctuation switch has no cases for the left bracket, the
right bracket or the colon; those characters reach the final errorToken
call. -/
def scanToken (s0 : ScanState) : Token × ScanState :=
  let s1 := skipWhitespaceF (s0.src.length + 1) s0
  let s2 := { s1 with startPos := s1.current }
  if isAtEnd s2 then (makeToken TokenType.TOKEN_EOF s2, s2)
  else
    let a := advanceSc s2
    let c := a.1
    let s := a.2
    if isAlphaC c then
      let s := identLoop (s.src.length + 1) s
      (makeToken (identifierType s) s, s)
    else if isDigitC c then numberTok s
    else if c == '(' then (makeToken TokenType.TOKEN_LEFT_PAREN s, s)
    else if c == ')' then (makeToken TokenType.TOKEN_RIGHT_PAREN s, s)
    else if c == '{' then (makeToken TokenType.TOKEN_LEFT_BRACE s, s)
    else if c == '}' then (makeToken TokenType.TOKEN_RIGHT_BRACE s, s)
    else if c == ';' then (makeToken TokenType.TOKEN_SEMICOLON s, s)
    else if c == ',' then (makeToken TokenType.TOKEN_COMMA s, s)
    else if c == '.' then (makeToken TokenType.TOKEN_DOT s, s)
    else if c == '-' then (makeToken TokenType.TOKEN_MINUS s, s)
    else if c == '+' then (makeToken TokenType.TOKEN_PLUS s, s)
    else if c == '/' then (makeToken TokenType.TOKEN_SLASH s, s)
    else if c == '*' then (makeToken TokenType.TOKEN_STAR s, s)
    else if c == '!' then
      let m := matchSc '=' s
      (makeToken (if m.1 then TokenType.TOKEN_BANG_EQUAL else TokenType.TOKEN_BANG) m.2, m.2)
    else if c == '=' then
      let m := matchSc '=' s
      (makeToken (if m.1 then TokenType.TOKEN_EQUAL_EQUAL else TokenType.TOKEN_EQUAL) m.2, m.2)
    else if c == '<' then
      let m := matchSc '=' s
      (makeToken (if m.1 then TokenType.TOKEN_LESS_EQUAL else TokenType.TOKEN_LESS) m.2, m.2)
    else if c == '>' then
      let m := matchSc '=' s
      (makeToken (if m.1 then TokenType.TOKEN_GREATER_EQUAL else TokenType.TOKEN_GREATER) m.2,
        m.2)
    else if c == '"' then stringTok s
    else (errorToken "Unexpected character." s, s)

/-- Claim C6: the claim states that the scanner produces a distinct
punctuation token for each listed punctuation character including the left
bracket, the right bracket and the colon, and that break, continue and
perm scan to their own keyword kinds.  The keyword half holds (scanner.c's
trie maps them to TOKEN_BREAK, TOKEN_CONTINUE and TOKEN_PERM — kinds which
scanner.h's TokenType enumeration nevertheless fails to declare), but the
bracket and colon half fails: scanToken has no cases for those characters,
so each one scans to a TOKEN_ERROR token with the message "Unexpected
character.", shown here by evaluation.  Code bug: compiler.c's parse table
indexes rules by TOKEN_LEFT_BRACKET, TOKEN_RIGHT_BRACKET and TOKEN_COLON,
which no scanner component declares or produces. -/
theorem c6_bracket_and_colon_scan_to_error_tokens :
    (scanToken (initScanner "[")).1
      = { ttype := TokenType.TOKEN_ERROR, lexeme := "Unexpected character.".toList, line := 1 }
    ∧ (scanToken (initScanner "]")).1
      = { ttype := TokenType.TOKEN_ERROR, lexeme := "Unexpected character.".toList, line := 1 }
    ∧ (scanToken (initScanner ":")).1
      = { ttype := TokenType.TOKEN_ERROR, lexeme := "Unexpected character.".toList, line := 1 }
    ∧ (scanToken (initScanner "break")).1.ttype = TokenType.TOKEN_BREAK
    ∧ (scanToken (initScanner "continue")).1.ttype = TokenType.TOKEN_CONTINUE
    ∧ (scanToken (initScanner "perm")).1.ttype = TokenType.TOKEN_PERM
    ∧ (scanToken (initScanner "(")).1.ttype = TokenType.TOKEN_LEFT_PAREN := by
  refine ⟨by decide, by decide, by decide, by decide, by decide, by decide, by decide⟩

/-! ## String interning (object.c; the interner table vm.strings)

object.c routes every string creation through copyString and takeString,
which first consult the interner and only allocate on a miss
(tableFindString and the tableSet registration live in the absent table.c
and are modelled from the spec, section 3: "hash and byte equality decide
canonicalization").  A string object is its identity (the pointer),
modelled by a number; the interner state records the content of every
allocated string keyed to its identity, plus the next fresh identity. -/

structure Interner where
  entries : List (String × Nat)
  nextId : Nat
  deriving DecidableEq

/-- Modelled from the spec: tableFindString from the absent table.c — find
the canonical object for the given bytes, if any. -/
def tableFindString : List (String × Nat) → String → Option Nat
  | [], _ => none
  | e :: rest, s => if e.1 = s then some e.2 else tableFindString rest s

/-- allocateString from object.c lines 71-82: allocate a fresh string
object and register it in vm.strings. -/
def allocateString (it : Interner) (s : String) : Nat × Interner :=
  (it.nextId, { entries := (s, it.nextId) :: it.entries, nextId := it.nextId + 1 })

/-- copyString from object.c lines 122-131: return the interned object when
one exists, else copy the characters and allocate. -/
def copyString (it : Interner) (s : String) : Nat × Interner :=
  match tableFindString it.entries s with
  | some i => (i, it)
  | none => allocateString it s

/-- takeString from object.c lines 97-106: same canonicalization as
copyString (on a hit the temporary character buffer is freed, a
memory-level action with no model content). -/
def takeString (it : Interner) (s : String) : Nat × Interner :=
  match tableFindString it.entries s with
  | some i => (i, it)
  | none => allocateString it s

/-- concatenate from vm.c lines 195-207: build the concatenated bytes and
intern them via takeString. -/
def concatenate (it : Interner) (a b : String) : Nat × Interner :=
  takeString it (a ++ b)

/-- The interning invariant: contents are registered at most once, each
identity names at most one content, and all identities are below the next
fresh one. -/
def InternInv (it : Interner) : Prop :=
  (it.entries.map Prod.fst).Nodup
    ∧ (it.entries.map Prod.snd).Nodup
    ∧ ∀ e ∈ it.entries, e.2 < it.nextId

theorem tableFindString_none_iff (l : List (String × Nat)) (s : String) :
    tableFindString l s = none ↔ s ∉ l.map Prod.fst := by
  induction l with
  | nil => simp [tableFindString]
  | cons e rest ih =>
    by_cases hk : e.1 = s
    · simp [tableFindString, hk]
    · simp [tableFindString, hk, ih, Ne.symm hk]

theorem tableFindString_mem (l : List (String × Nat)) (s : String) (i : Nat)
    (h : tableFindString l s = some i) : (s, i) ∈ l := by
  induction l with
  | nil => simp [tableFindString] at h
  | cons e rest ih =>
    by_cases hk : e.1 = s
    · simp only [tableFindString, if_pos hk, Option.some.injEq] at h
      exact List.mem_cons.mpr (Or.inl (by rw [← hk, ← h]))
    · simp only [tableFindString, if_neg hk] at h
      exact List.mem_cons_of_mem _ (ih h)

theorem tableFindString_of_mem_nodup (l : List (String × Nat)) (s : String) (i : Nat)
    (hnd : (l.map Prod.fst).Nodup) (hmem : (s, i) ∈ l) : tableFindString l s = some i := by
  induction l with
  | nil => simp at hmem
  | cons e rest ih =>
    simp only [List.map_cons, List.nodup_cons] at hnd
    rcases List.mem_cons.mp hmem with heq | htail
    · subst heq
      simp [tableFindString]
    · have hkey : e.1 ≠ s := by
        intro hc
        exact hnd.1 (hc ▸ (List.mem_map.mpr ⟨(s, i), htail, rfl⟩))
      simp only [tableFindString, if_neg hkey]
      exact ih hnd.2 htail

theorem copyString_preserves_inv (it : Interner) (s : String) (h : InternInv it) :
    InternInv (copyString it s).2 := by
  unfold copyString
  cases hf : tableFindString it.entries s with
  | some i => exact h
  | none =>
    obtain ⟨hkeys, hids, hbound⟩ := h
    refine ⟨?_, ?_, ?_⟩
    · simp only [allocateString, List.map_cons, List.nodup_cons]
      exact ⟨(tableFindString_none_iff it.entries s).mp hf, hkeys⟩
    · simp only [allocateString, List.map_cons, List.nodup_cons]
      refine ⟨?_, hids⟩
      intro hc
      obtain ⟨e, hmem, hei⟩ := List.mem_map.mp hc
      exact Nat.lt_irrefl it.nextId (hei ▸ hbound e hmem)
    · intro e hmem
      simp only [allocateString, List.mem_cons] at hmem
      rcases hmem with heq | htail
      · subst heq
        exact Nat.lt_succ_self _
      · exact Nat.lt_succ_of_lt (hbound e htail)

theorem copyString_mem (it : Interner) (s : String) :
    (s, (copyString it s).1) ∈ (copyString it s).2.entries := by
  unfold copyString
  cases hf : tableFindString it.entries s with
  | some i => exact tableFindString_mem it.entries s i hf
  | none => simp [allocateString]

theorem nodup_keys_inj (l : List (String × Nat)) (hnd : (l.map Prod.fst).Nodup)
    (s : String) (i j : Nat) (h1 : (s, i) ∈ l) (h2 : (s, j) ∈ l) : i = j := by
  induction l with
  | nil => simp at h1
  | cons e rest ih =>
    simp only [List.map_cons, List.nodup_cons] at hnd
    rcases List.mem_cons.mp h1 with he1 | ht1 <;> rcases List.mem_cons.mp h2 with he2 | ht2
    · exact congrArg Prod.snd (he1.trans he2.symm)
    · subst he1
      have hs : s ∉ List.map Prod.fst rest := by simpa using hnd.1
      exact absurd (List.mem_map.mpr ⟨(s, j), ht2, rfl⟩) hs
    · subst he2
      have hs : s ∉ List.map Prod.fst rest := by simpa using hnd.1
      exact absurd (List.mem_map.mpr ⟨(s, i), ht1, rfl⟩) hs
    · exact ih hnd.2 ht1 ht2

theorem nodup_ids_inj (l : List (String × Nat)) (hnd : (l.map Prod.snd).Nodup)
    (s1 s2 : String) (i : Nat) (h1 : (s1, i) ∈ l) (h2 : (s2, i) ∈ l) : s1 = s2 := by
  induction l with
  | nil => simp at h1
  | cons e rest ih =>
    simp only [List.map_cons, List.nodup_cons] at hnd
    rcases List.mem_cons.mp h1 with he1 | ht1 <;> rcases List.mem_cons.mp h2 with he2 | ht2
    · exact congrArg Prod.fst (he1.trans he2.symm)
    · subst he1
      have hi : i ∉ List.map Prod.snd rest := by simpa using hnd.1
      exact absurd (List.mem_map.mpr ⟨(s2, i), ht2, rfl⟩) hi
    · subst he2
      have hi : i ∉ List.map Prod.snd rest := by simpa using hnd.1
      exact absurd (List.mem_map.mpr ⟨(s1, i), ht1, rfl⟩) hi
    · exact ih hnd.2 ht1 ht2

theorem inv_id_iff_content (it : Interner) (h : InternInv it) (s1 s2 : String) (i j : Nat)
    (h1 : (s1, i) ∈ it.entries) (h2 : (s2, j) ∈ it.entries) : i = j ↔ s1 = s2 := by
  constructor
  · intro hij
    exact nodup_ids_inj it.entries h.2.1 s1 s2 i h1 (hij.symm ▸ h2)
  · intro hs
    exact nodup_keys_inj it.entries h.1 s1 i j h1 (hs.symm ▸ h2)

/-- Claim C8: interning holds.  Starting from any interner state satisfying
the canonicalization invariant: concatenating two strings (OP_ADD's
concatenate, which interns via takeString) preserves the invariant; a later
string literal with the same bytes (compiled via copyString) returns the
very same object identity without allocating anything; and in the resulting
state two string objects are the same identity exactly when their byte
contents are equal. -/
theorem c8_interning_canonical (it : Interner) (h : InternInv it) (a b : String) :
    InternInv (concatenate it a b).2
    ∧ (copyString (concatenate it a b).2 (a ++ b)).1 = (concatenate it a b).1
    ∧ (copyString (concatenate it a b).2 (a ++ b)).2 = (concatenate it a b).2
    ∧ ∀ s1 s2 i j, (s1, i) ∈ (concatenate it a b).2.entries →
        (s2, j) ∈ (concatenate it a b).2.entries → (i = j ↔ s1 = s2) := by
  have hinv : InternInv (concatenate it a b).2 := copyString_preserves_inv it (a ++ b) h
  have hmem : (a ++ b, (concatenate it a b).1) ∈ (concatenate it a b).2.entries :=
    copyString_mem it (a ++ b)
  have hfind : tableFindString (concatenate it a b).2.entries (a ++ b)
      = some (concatenate it a b).1 :=
    tableFindString_of_mem_nodup _ _ _ hinv.1 hmem
  refine ⟨hinv, ?_, ?_, ?_⟩
  · unfold copyString
    rw [hfind]
  · unfold copyString
    rw [hfind]
  · intro s1 s2 i j h1 h2
    exact inv_id_iff_content _ hinv s1 s2 i j h1 h2

/-- Witness for C8 at the empty interner and the scenario of the spec,
section 8: concatenating he and llo, then compiling the literal hello. -/
theorem c8_interning_canonical_witness :
    InternInv { entries := [], nextId := 0 }
    ∧ (InternInv (concatenate { entries := [], nextId := 0 } "he" "llo").2
        ∧ (copyString (concatenate { entries := [], nextId := 0 } "he" "llo").2
            ("he" ++ "llo")).1 = (concatenate { entries := [], nextId := 0 } "he" "llo").1
        ∧ (copyString (concatenate { entries := [], nextId := 0 } "he" "llo").2
            ("he" ++ "llo")).2 = (concatenate { entries := [], nextId := 0 } "he" "llo").2
        ∧ ∀ s1 s2 i j,
            (s1, i) ∈ (concatenate { entries := [], nextId := 0 } "he" "llo").2.entries →
            (s2, j) ∈ (concatenate { entries := [], nextId := 0 } "he" "llo").2.entries →
            (i = j ↔ s1 = s2)) :=
  ⟨⟨List.nodup_nil, List.nodup_nil, by simp⟩,
    c8_interning_canonical { entries := [], nextId := 0 }
      ⟨List.nodup_nil, List.nodup_nil, by simp⟩ "he" "llo"⟩

/-! ## Open upvalues (vm.c, captureUpvalue and closeUpvalues)

An open upvalue points at a value-stack slot; stack addresses are modelled
by slot indices (the C list is ordered by descending stack address, which
is descending slot index).  An upvalue object is its identity plus its
current location.  Closing an upvalue copies the slot's value into the
upvalue's own closed field and redirects its location there; the model
records each closed upvalue's identity together with the value it now
owns. -/

structure UpvalueObj where
  uid : Nat
  location : Nat
  deriving DecidableEq

/-- The openUpvalues list is sorted strictly decreasing by stack slot. -/
def SortedDesc (l : List UpvalueObj) : Prop :=
  l.Pairwise (fun a b => b.location < a.location)

/-- captureUpvalue from vm.c lines 147-169: walk the list while the
current entry's location is above the sought slot; if the walk stops on an
entry at exactly that slot, return it; otherwise splice a fresh upvalue in
front of the stopping point.  The returned pair is (the upvalue handed to
the caller, the new openUpvalues list). -/
def captureGo (slot fresh : Nat) : List UpvalueObj → UpvalueObj × List UpvalueObj
  | [] => ({ uid := fresh, location := slot }, [{ uid := fresh, location := slot }])
  | u :: rest =>
    if slot < u.location then
      let r := captureGo slot fresh rest
      (r.1, u :: r.2)
    else if u.location = slot then (u, u :: rest)
    else
      ({ uid := fresh, location := slot },
        { uid := fresh, location := slot } :: u :: rest)

/-- closeUpvalues from vm.c lines 171-178: while the head of the list is at
or above the boundary slot, copy its slot value into its own closed field,
redirect its location there and unlink it.  The first component is the
remaining open list; the second lists every upvalue closed by this call
together with the value it now owns. -/
def closeGo (last : Nat) (stk : Nat → Value) :
    List UpvalueObj → List UpvalueObj × List (Nat × Value)
  | [] => ([], [])
  | u :: rest =>
    if last ≤ u.location then
      let r := closeGo last stk rest
      (r.1, (u.uid, stk u.location) :: r.2)
    else (u :: rest, [])

theorem captureGo_mem (slot fresh : Nat) (l : List UpvalueObj) :
    ∀ x ∈ (captureGo slot fresh l).2,
      x ∈ l ∨ x = { uid := fresh, location := slot } := by
  induction l with
  | nil =>
    intro x hx
    simp only [captureGo, List.mem_singleton] at hx
    exact Or.inr hx
  | cons u rest ih =>
    intro x hx
    by_cases h1 : slot < u.location
    · simp only [captureGo, if_pos h1, List.mem_cons] at hx
      rcases hx with hx | hx
      · exact Or.inl (List.mem_cons.mpr (Or.inl hx))
      · rcases ih x hx with hmem | hnew
        · exact Or.inl (List.mem_cons_of_mem _ hmem)
        · exact Or.inr hnew
    · by_cases h2 : u.location = slot
      · simp only [captureGo, if_neg h1, if_pos h2] at hx
        exact Or.inl hx
      · simp only [captureGo, if_neg h1, if_neg h2, List.mem_cons] at hx
        rcases hx with hx | hx | hx
        · exact Or.inr hx
        · exact Or.inl (List.mem_cons.mpr (Or.inl hx))
        · exact Or.inl (List.mem_cons_of_mem _ hx)

theorem captureGo_sorted (slot fresh : Nat) (l : List UpvalueObj) (hs : SortedDesc l) :
    SortedDesc (captureGo slot fresh l).2 := by
  induction l with
  | nil =>
    simp [captureGo, SortedDesc]
  | cons u rest ih =>
    rw [SortedDesc, List.pairwise_cons] at hs
    obtain ⟨hhead, htail⟩ := hs
    by_cases h1 : slot < u.location
    · simp only [captureGo, if_pos h1]
      rw [SortedDesc, List.pairwise_cons]
      refine ⟨?_, ih htail⟩
      intro b hb
      rcases captureGo_mem slot fresh rest b hb with hmem | hnew
      · exact hhead b hmem
      · rw [hnew]
        exact h1
    · by_cases h2 : u.location = slot
      · simp only [captureGo, if_neg h1, if_pos h2]
        rw [SortedDesc, List.pairwise_cons]
        exact ⟨hhead, htail⟩
      · simp only [captureGo, if_neg h1, if_neg h2]
        rw [SortedDesc, List.pairwise_cons]
        constructor
        · intro b hb
          rcases List.mem_cons.mp hb with hb | hb
          · rw [hb]
            exact Nat.lt_of_le_of_ne (Nat.le_of_not_lt h1) h2
          · exact Nat.lt_trans (hhead b hb) (Nat.lt_of_le_of_ne (Nat.le_of_not_lt h1) h2)
        · rw [List.pairwise_cons]
          exact ⟨hhead, htail⟩

theorem captureGo_existing (slot fresh : Nat) (l : List UpvalueObj) (hs : SortedDesc l)
    (w : UpvalueObj) (hw : w ∈ l) (hloc : w.location = slot) :
    captureGo slot fresh l = (w, l) := by
  induction l with
  | nil => simp at hw
  | cons u rest ih =>
    rw [SortedDesc, List.pairwise_cons] at hs
    obtain ⟨hhead, htail⟩ := hs
    rcases List.mem_cons.mp hw with heq | htl
    · subst heq
      simp [captureGo, hloc]
    · have hlt : slot < u.location := hloc ▸ hhead w htl
      simp only [captureGo, if_pos hlt]
      rw [ih htail htl]

theorem closeGo_spec (last : Nat) (stk : Nat → Value) (l : List UpvalueObj)
    (hs : SortedDesc l) :
    (closeGo last stk l).1 = l.filter (fun u => decide (u.location < last))
    ∧ (closeGo last stk l).2
        = (l.filter fun u => decide (last ≤ u.location)).map
            (fun u => (u.uid, stk u.location)) := by
  induction l with
  | nil => exact ⟨rfl, rfl⟩
  | cons u rest ih =>
    rw [SortedDesc, List.pairwise_cons] at hs
    obtain ⟨hhead, htail⟩ := hs
    by_cases h1 : last ≤ u.location
    · obtain ⟨ih1, ih2⟩ := ih htail
      constructor
      · simp only [closeGo, if_pos h1, ih1, List.filter_cons,
          decide_eq_true_eq, if_neg (Nat.not_lt.mpr h1)]
      · simp only [closeGo, if_pos h1, ih2, List.filter_cons, decide_eq_true_eq, if_pos h1,
          List.map_cons]
    · have hu : u.location < last := Nat.lt_of_not_le h1
      constructor
      · simp only [closeGo, if_neg h1, List.filter_cons, decide_eq_true_eq, if_pos hu]
        rw [List.filter_eq_self.mpr]
        intro a ha
        exact decide_eq_true (Nat.lt_trans (hhead a ha) hu)
      · simp only [closeGo, if_neg h1, List.filter_cons, decide_eq_true_eq,
          if_neg (Nat.not_le.mpr hu)]
        rw [List.filter_eq_nil_iff.mpr, List.map_nil]
        intro a ha
        simp only [decide_eq_true_eq, Nat.not_le]
        exact Nat.lt_trans (hhead a ha) hu

/-- Claim C9: under the sortedness invariant on the open-upvalue list —
which both operations preserve — captureUpvalue returns the existing entry
for an already-captured slot without touching the list, inserts fresh
entries in order, the list never holds two upvalues for one slot, and
closeUpvalues(last) (run by OP_RETURN with last = the returning frame's
slot base) closes exactly the upvalues at or above last: each one is
unlinked from the open list and owns its slot's value in its closed field,
while the upvalues below last stay open. -/
theorem c9_open_upvalues (l : List UpvalueObj) (hs : SortedDesc l)
    (slot fresh last : Nat) (stk : Nat → Value) :
    SortedDesc (captureGo slot fresh l).2
    ∧ (∀ w ∈ l, w.location = slot → captureGo slot fresh l = (w, l))
    ∧ (l.map fun u => u.location).Nodup
    ∧ (closeGo last stk l).1 = l.filter (fun u => decide (u.location < last))
    ∧ SortedDesc (closeGo last stk l).1
    ∧ ∀ u ∈ l, last ≤ u.location →
        u ∉ (closeGo last stk l).1 ∧ (u.uid, stk u.location) ∈ (closeGo last stk l).2 := by
  obtain ⟨hclose1, hclose2⟩ := closeGo_spec last stk l hs
  refine ⟨captureGo_sorted slot fresh l hs, ?_, ?_, hclose1, ?_, ?_⟩
  · intro w hw hloc
    exact captureGo_existing slot fresh l hs w hw hloc
  · exact List.pairwise_map.mpr (hs.imp fun h => (Nat.ne_of_lt h).symm)
  · rw [hclose1]
    exact List.Pairwise.sublist (List.filter_sublist l) hs
  · intro u hu hge
    constructor
    · rw [hclose1]
      intro hc
      have hmem := (List.mem_filter.mp hc).2
      simp only [decide_eq_true_eq] at hmem
      exact Nat.not_lt.mpr hge hmem
    · rw [hclose2]
      exact List.mem_map.mpr ⟨u, List.mem_filter.mpr ⟨hu, decide_eq_true hge⟩, rfl⟩

/-- The concrete open-upvalue list for the C9 witness: upvalues at slots 5
and 3, sorted strictly decreasing. -/
def c9List : List UpvalueObj :=
  [{ uid := 0, location := 5 }, { uid := 1, location := 3 }]

/-- A concrete value stack for the C9 witness. -/
def c9Stk : Nat → Value := fun _ => Value.nil

/-- Witness for C9 at a concrete sorted list: capturing slot 3 and closing
from slot base 4. -/
theorem c9_open_upvalues_witness :
    SortedDesc c9List
    ∧ (SortedDesc (captureGo 3 9 c9List).2
      ∧ (∀ w ∈ c9List, w.location = 3 → captureGo 3 9 c9List = (w, c9List))
      ∧ ((c9List.map fun u => u.location).Nodup)
      ∧ (closeGo 4 c9Stk c9List).1 = c9List.filter (fun u => decide (u.location < 4))
      ∧ SortedDesc (closeGo 4 c9Stk c9List).1
      ∧ ∀ u ∈ c9List, 4 ≤ u.location →
          u ∉ (closeGo 4 c9Stk c9List).1
          ∧ (u.uid, c9Stk u.location) ∈ (closeGo 4 c9Stk c9List).2) :=
  ⟨by simp [c9List, SortedDesc],
    c9_open_upvalues c9List (by simp [c9List, SortedDesc]) 3 9 4 c9Stk⟩
